import Mathlib

/-!
Verification development for the ISA speech-transcription service.

The embedding follows the two inference-serving sources
(`src/ai-server/server.py` and `src/ai-server/modal_deploy.py`, whose
request pipelines are line-for-line identical) and the database
initializer (`src/backend-auth/init_db.py`).

Concurrency model: every request handler in the sources is an
`async def` coroutine executed on a single-threaded asyncio event loop,
and `load_model` contains no `await` point, so each invocation of
`load_model` runs to completion without interleaving.  A concurrent
execution of N callers is therefore a sequence of atomic `load_model`
steps in some arrival order, which is how it is embedded here.
-/

namespace ISA

/-! ## Constants (server.py lines 19, 41-48; modal_deploy.py lines 55-60) -/

def MODEL_NAME : String := "openai/whisper-small"

def LANGUAGE : String := "en"

def TASK : String := "transcribe"

def CUDA_DEVICE : String := "cuda"

def CPU_DEVICE : String := "cpu"

/-- Numeric precision of a tensor or of the model weights
(torch.float16 on GPU, torch.float32 on CPU). -/
inductive Dtype where
  | float16
  | float32
  deriving DecidableEq, Repr

/-! ## Model and processor handles -/

/-- Embeds the object returned by
WhisperForConditionalGeneration.from_pretrained followed by `.to`:
an opaque weight set identified by model name, carrying the dtype it
was instantiated with and the device it currently lives on. -/
structure ModelHandle where
  name : String
  dtype : Dtype
  device : String
  deriving DecidableEq, Repr

/-- Embeds the WhisperProcessor feature-extraction pipeline object. -/
structure WhisperProcessor where
  name : String
  deriving DecidableEq, Repr

/-- Embeds WhisperProcessor.from_pretrained: deterministic constructor
from the fixed model identifier. -/
def WhisperProcessor.from_pretrained (name : String) : WhisperProcessor :=
  ⟨name⟩

/-- Embeds WhisperForConditionalGeneration.from_pretrained: weights are
materialized on the CPU with the requested dtype. -/
def ModelHandle.from_pretrained (name : String) (dtype : Dtype) : ModelHandle :=
  ⟨name, dtype, CPU_DEVICE⟩

/-- Embeds the PyTorch `.to(device)` move. -/
def ModelHandle.to (m : ModelHandle) (device : String) : ModelHandle :=
  { m with device := device }

/-! ## The model cache (server.py lines 50-74; modal_deploy.py lines 49-70)

In the sources `self.model` / `ModelCache.model` and the processor field
are always assigned together inside the same atomic (await-free) section
and never reset, so the pair is embedded as a single `Option`.
`loadCount` instruments how many load operations ran (the load-counter
probe of spec section 8) and `probeCount` instruments how many times
`torch.cuda.is_available()` was called; neither influences control flow. -/

structure CacheState where
  loaded : Option (ModelHandle × WhisperProcessor)
  loadCount : Nat
  probeCount : Nat
  deriving DecidableEq, Repr

/-- The cache state of a freshly started (cold) process. -/
def coldState : CacheState :=
  { loaded := none, loadCount := 0, probeCount := 0 }

/-- Embeds one atomic execution of `load_model`
(server.py lines 57-74, modal_deploy.py lines 53-70):
if no model is cached, probe the accelerator twice (device line and
dtype line each call torch.cuda.is_available()), fetch processor and
weights, move weights to the device, cache both; otherwise return the
cached pair unchanged.  `cuda` is the fixed per-process result of
torch.cuda.is_available(). -/
def load_model (cuda : Bool) (s : CacheState) :
    (ModelHandle × WhisperProcessor) × CacheState :=
  match s.loaded with
  | some mp => (mp, s)
  | none =>
      let device := if cuda then CUDA_DEVICE else CPU_DEVICE
      let dtype := if cuda then Dtype.float16 else Dtype.float32
      let p := WhisperProcessor.from_pretrained MODEL_NAME
      let m := (ModelHandle.from_pretrained MODEL_NAME dtype).to device
      ((m, p),
        { loaded := some (m, p),
          loadCount := s.loadCount + 1,
          probeCount := s.probeCount + 2 })

/-- The unique model handle a process with accelerator flag `cuda`
ever materializes. -/
def loadedModel (cuda : Bool) : ModelHandle :=
  (ModelHandle.from_pretrained MODEL_NAME
      (if cuda then Dtype.float16 else Dtype.float32)).to
    (if cuda then CUDA_DEVICE else CPU_DEVICE)

/-- The unique processor a process ever materializes. -/
def loadedProcessor : WhisperProcessor :=
  WhisperProcessor.from_pretrained MODEL_NAME

/-- N concurrent callers of `load_model` from one process: under the
single-threaded event loop each call is one atomic step, so any
concurrent execution is this sequential chain in arrival order.
Returns the list of handles the callers receive and the final state. -/
def runCallers (cuda : Bool) : Nat → CacheState →
    List (ModelHandle × WhisperProcessor) × CacheState
  | 0, s => ([], s)
  | n + 1, s =>
      let (r, s1) := load_model cuda s
      let (rs, s2) := runCallers cuda n s1
      (r :: rs, s2)

lemma load_model_warm (cuda : Bool) (s : CacheState)
    (mp : ModelHandle × WhisperProcessor) (h : s.loaded = some mp) :
    load_model cuda s = (mp, s) := by
  simp [load_model, h]

lemma load_model_cold (cuda : Bool) (s : CacheState) (h : s.loaded = none) :
    load_model cuda s =
      ((loadedModel cuda, loadedProcessor),
        { loaded := some (loadedModel cuda, loadedProcessor),
          loadCount := s.loadCount + 1,
          probeCount := s.probeCount + 2 }) := by
  simp [load_model, h, loadedModel, loadedProcessor]

lemma runCallers_warm (cuda : Bool) (n : Nat) (s : CacheState)
    (mp : ModelHandle × WhisperProcessor) (h : s.loaded = some mp) :
    runCallers cuda n s = (List.replicate n mp, s) := by
  induction n with
  | zero => simp [runCallers]
  | succ k ih =>
      simp [runCallers, load_model_warm cuda s mp h, ih, List.replicate_succ]

/-! ## Audio decoding and channel reduction
(server.py lines 236-241; modal_deploy.py lines 76-81) -/

/-- Embeds the numpy array returned by sf.read: either one-dimensional
(already mono) or two-dimensional with shape (frames, channels), each
inner list being one frame holding one sample per channel. -/
inductive NpArray where
  | oneD : List ℚ → NpArray
  | twoD : List (List ℚ) → NpArray
  deriving DecidableEq, Repr

/-- Embeds np.mean(audio_data, axis=1): per-frame arithmetic mean
across channels. -/
def meanAxis1 (rows : List (List ℚ)) : List ℚ :=
  rows.map (fun r => r.sum / (r.length : ℚ))

/-- Embeds lines 240-241 of server.py: the 2-D branch (shape length
greater than 1) is reduced by np.mean over axis 1, the 1-D branch is
passed through unchanged. -/
def monoSamples : NpArray → List ℚ
  | NpArray.oneD xs => xs
  | NpArray.twoD rows => meanAxis1 rows

/-! ## Device profile

Spec section 4.2 names the pair (device kind, precision) a
DeviceProfile.  In the sources the pair is the two ternary expressions
on torch.cuda.is_available() repeated at server.py lines 61-62 and
244-245 (and modal_deploy.py lines 55-56 and 83-84); `resolveProfile`
names exactly that repeated expression. -/

structure DeviceProfile where
  device : String
  dtype : Dtype
  deriving DecidableEq, Repr

def resolveProfile (cuda : Bool) : DeviceProfile :=
  { device := if cuda then CUDA_DEVICE else CPU_DEVICE,
    dtype := if cuda then Dtype.float16 else Dtype.float32 }

/-! ## The request pipeline (server.py lines 222-271; modal_deploy.py lines 72-109) -/

/-- Embeds the BatchFeature returned by the processor call: the
input-features tensor content, the attention mask, and the device and
dtype the input-features tensor currently has.  The processor produces
CPU float32 tensors; `.to(device)` moves them and `.half()` casts the
input features. -/
structure Features where
  data : List ℚ
  mask : List Nat
  device : String
  dtype : Dtype
  deriving DecidableEq, Repr

/-- Embeds the HTTP 200 payload of the transcription endpoint. -/
structure Response where
  text : String
  deriving DecidableEq, Repr

/-- Embeds a Python exception escaping the handler; FastAPI surfaces it
as a generic HTTP 500 internal-server error. -/
inductive PyError where
  | exception (msg : String)
  deriving DecidableEq, Repr

/-- HTTP status the framework produces for a handler outcome: 200 on a
returned payload, 500 on an uncaught exception. -/
def statusOf : Except PyError Response → Nat
  | Except.error _ => 500
  | Except.ok _ => 200

/-- Parameters standing for the external libraries the handler calls:
sf.read (none embeds a raised parse exception), the Whisper feature
extractor (returning input-features content and attention mask), the
autoregressive generate call, and batch_decode composed with the [0]
index. -/
structure Libs where
  sfRead : List Nat → Option (NpArray × Nat)
  extract : List ℚ → Nat → List ℚ × List Nat
  generate : ModelHandle → Features → String → String → List Nat
  decode : List Nat → String

/-- Instrumentation of one handler run: whether sf.read succeeded,
how many torch.cuda.is_available() probes the handler body itself made,
and, when generation was reached, the features it received, the
language and task arguments, and whether it ran under torch.no_grad. -/
structure Trace where
  decodeOk : Bool
  probes : Nat
  genCall : Option (Features × String × String × Bool)
  deriving DecidableEq, Repr

/-- Embeds the body of transcribe_audio (server.py lines 229-271):
ensure the model is loaded, read and decode the upload (an unparseable
buffer raises out of sf.read), reduce multi-channel audio to mono by
per-frame mean, re-probe the device and dtype, extract features, move
them to the device and cast to half precision when on GPU, run
generation under no_grad with the fixed language and task, decode the
ids, and return the text.  No input validation or exception handling
exists anywhere in the body. -/
def transcribe_audio (libs : Libs) (cuda : Bool) (s : CacheState)
    (fileBytes : List Nat) : Except PyError Response × CacheState × Trace :=
  let r1 := load_model cuda s
  let asr_model := r1.1.1
  let s1 := r1.2
  match libs.sfRead fileBytes with
  | none =>
      (Except.error (PyError.exception "soundfile failed to parse the upload"),
        s1, { decodeOk := false, probes := 0, genCall := none })
  | some (audio, sample_rate) =>
      let audio_data := monoSamples audio
      let device := if cuda then CUDA_DEVICE else CPU_DEVICE
      let dtype := if cuda then Dtype.float16 else Dtype.float32
      let s2 := { s1 with probeCount := s1.probeCount + 2 }
      let ext := libs.extract audio_data sample_rate
      let inputs0 : Features :=
        { data := ext.1, mask := ext.2, device := CPU_DEVICE, dtype := Dtype.float32 }
      let inputs1 := { inputs0 with device := device }
      let inputs2 :=
        if dtype = Dtype.float16 then { inputs1 with dtype := Dtype.float16 } else inputs1
      let predicted_ids := libs.generate asr_model inputs2 LANGUAGE TASK
      let transcription := libs.decode predicted_ids
      (Except.ok { text := transcription }, s2,
        { decodeOk := true, probes := 2,
          genCall := some (inputs2, LANGUAGE, TASK, true) })

/-! ## Process-level events (server.py lines 78-82 lifespan, plus requests) -/

inductive SrvEvent where
  | startup
  | request (fileBytes : List Nat)
  deriving Repr

/-- One process-level step: the startup lifespan hook calls load_model;
a request runs the transcribe_audio handler.  Only the cache state is
threaded between steps. -/
def srvStep (libs : Libs) (cuda : Bool) (s : CacheState) : SrvEvent → CacheState
  | SrvEvent.startup => (load_model cuda s).2
  | SrvEvent.request b => (transcribe_audio libs cuda s b).2.1

/-- The cache state after a sequence of process-level events from a
cold start. -/
def srvRun (libs : Libs) (cuda : Bool) (events : List SrvEvent) : CacheState :=
  events.foldl (srvStep libs cuda) coldState

/-! ## Concrete demonstration instances of the external libraries -/

/-- A decoder that reads every byte as one mono sample at 16 kHz. -/
def demoSfRead (b : List Nat) : Option (NpArray × Nat) :=
  some (NpArray.oneD (b.map (fun n => (n : ℚ))), 16000)

def demoLibs : Libs :=
  { sfRead := demoSfRead,
    extract := fun xs _ => (xs, List.replicate xs.length 1),
    generate := fun _ f _ _ => f.mask,
    decode := fun ids => toString ids.length }

/-- A decoder on which every upload is unparseable (sf.read raises). -/
def badLibs : Libs := { demoLibs with sfRead := fun _ => none }

/-- A decoder on which every upload parses to zero samples. -/
def emptyLibs : Libs :=
  { demoLibs with sfRead := fun _ => some (NpArray.oneD [], 16000) }

/-! ## Cache-state invariant over process runs -/

/-- Invariant of every reachable cache state: either still cold with no
load performed, or warm holding the unique handle after exactly one
load. -/
def cacheInv (cuda : Bool) (s : CacheState) : Prop :=
  (s.loaded = none ∧ s.loadCount = 0) ∨
  (s.loaded = some (loadedModel cuda, loadedProcessor) ∧ s.loadCount = 1)

lemma load_model_inv (cuda : Bool) (s : CacheState) (h : cacheInv cuda s) :
    cacheInv cuda (load_model cuda s).2 := by
  rcases h with ⟨h1, h2⟩ | ⟨h1, h2⟩
  · right
    rw [load_model_cold cuda s h1]
    exact ⟨rfl, by simp [h2]⟩
  · right
    rw [load_model_warm cuda s _ h1]
    exact ⟨h1, h2⟩

lemma transcribe_cache (libs : Libs) (cuda : Bool) (s : CacheState)
    (b : List Nat) :
    (transcribe_audio libs cuda s b).2.1.loaded = (load_model cuda s).2.loaded ∧
    (transcribe_audio libs cuda s b).2.1.loadCount = (load_model cuda s).2.loadCount := by
  cases hr : libs.sfRead b with
  | none => simp [transcribe_audio, hr]
  | some v => cases v with
    | mk audio sr => simp [transcribe_audio, hr]

lemma srvStep_inv (libs : Libs) (cuda : Bool) (s : CacheState)
    (e : SrvEvent) (h : cacheInv cuda s) :
    cacheInv cuda (srvStep libs cuda s e) := by
  cases e with
  | startup => exact load_model_inv cuda s h
  | request b =>
      have hc := transcribe_cache libs cuda s b
      have hinv := load_model_inv cuda s h
      rcases hinv with ⟨h1, h2⟩ | ⟨h1, h2⟩
      · exact Or.inl ⟨by rw [srvStep, hc.1, h1], by rw [srvStep, hc.2, h2]⟩
      · exact Or.inr ⟨by rw [srvStep, hc.1, h1], by rw [srvStep, hc.2, h2]⟩

lemma srvRun_inv (libs : Libs) (cuda : Bool) (events : List SrvEvent) :
    cacheInv cuda (srvRun libs cuda events) := by
  have h : ∀ s : CacheState, cacheInv cuda s →
      cacheInv cuda (events.foldl (srvStep libs cuda) s) := by
    induction events with
    | nil => intro s hs; simpa using hs
    | cons e rest ih =>
        intro s hs
        exact ih _ (srvStep_inv libs cuda s e hs)
  exact h coldState (Or.inl ⟨rfl, rfl⟩)

/-! ## Claim C1 -/

/-- C1: from a cold process, N concurrent invocations of the model
cache get operation (load_model) — serialized into atomic steps by the
single-threaded event loop, in arrival order — perform exactly one load
operation, and every one of the N callers receives the same
model/processor handle. -/
theorem modelCache_single_load (cuda : Bool) (n : Nat) (h : 1 ≤ n) :
    (runCallers cuda n coldState).2.loadCount = 1 ∧
    ∀ mp ∈ (runCallers cuda n coldState).1,
      mp = (loadedModel cuda, loadedProcessor) := by
  obtain ⟨k, rfl⟩ : ∃ k, n = k + 1 := ⟨n - 1, by omega⟩
  have hcold : coldState.loaded = none := rfl
  have hwarm :
      ({ loaded := some (loadedModel cuda, loadedProcessor),
         loadCount := coldState.loadCount + 1,
         probeCount := coldState.probeCount + 2 } : CacheState).loaded
        = some (loadedModel cuda, loadedProcessor) := rfl
  simp only [runCallers, load_model_cold cuda coldState hcold,
    runCallers_warm cuda k _ _ hwarm]
  constructor
  · rfl
  · intro mp hmp
    rcases List.mem_cons.mp hmp with h1 | h1
    · exact h1
    · exact List.eq_of_mem_replicate h1

/-- Witness for C1 at three concurrent callers on a CPU-only process. -/
theorem modelCache_single_load_witness :
    1 ≤ 3 ∧ ((runCallers false 3 coldState).2.loadCount = 1 ∧
      ∀ mp ∈ (runCallers false 3 coldState).1,
        mp = (loadedModel false, loadedProcessor)) :=
  ⟨by decide, modelCache_single_load false 3 (by decide)⟩

/-! ## Claim C6 -/

/-- C6: over any sequence of process events (startup hook, requests),
at most one load ever runs, the cache only ever holds the one handle a
process can materialize (or is still cold), and once a handle is cached
the get operation is a pure read: it returns that same handle and
leaves the state untouched, never recreating or unloading the model. -/
theorem modelHandle_process_invariant (libs : Libs) (cuda : Bool)
    (events : List SrvEvent) :
    (srvRun libs cuda events).loadCount ≤ 1 ∧
    ((srvRun libs cuda events).loaded = none ∨
      (srvRun libs cuda events).loaded = some (loadedModel cuda, loadedProcessor)) ∧
    ∀ s : CacheState, ∀ mp : ModelHandle × WhisperProcessor,
      s.loaded = some mp → load_model cuda s = (mp, s) := by
  rcases srvRun_inv libs cuda events with ⟨h1, h2⟩ | ⟨h1, h2⟩
  · exact ⟨by omega, Or.inl h1, fun s mp h => load_model_warm cuda s mp h⟩
  · exact ⟨by omega, Or.inr h1, fun s mp h => load_model_warm cuda s mp h⟩

/-- Witness for C6: a startup then a request on a CPU-only process, and
a concrete warm state on which get is a pure read. -/
theorem modelHandle_process_invariant_witness :
    (srvRun demoLibs false [SrvEvent.startup, SrvEvent.request [1]]).loadCount ≤ 1 ∧
    load_model false (load_model false coldState).2 =
      ((loadedModel false, loadedProcessor), (load_model false coldState).2) :=
  ⟨(modelHandle_process_invariant demoLibs false
      [SrvEvent.startup, SrvEvent.request [1]]).1,
   (modelHandle_process_invariant demoLibs false []).2.2
      (load_model false coldState).2 (loadedModel false, loadedProcessor) rfl⟩

/-! ## Claim C3 -/

/-- C3: for audio decoded with more than one channel (a 2-D frames by
channels array, every frame holding c ≥ 2 channel samples), the channel
reduction yields one mono channel whose length is the per-channel
sample count and whose sample i is the arithmetic mean across channels
of sample i, and the reduction is deterministic: identical inputs give
identical output. -/
theorem channel_reduction_mean (rows : List (List ℚ)) (c : Nat)
    (hc : 2 ≤ c) (hrows : ∀ r ∈ rows, r.length = c) :
    (monoSamples (NpArray.twoD rows)).length = rows.length ∧
    (∀ i, i < rows.length →
      (monoSamples (NpArray.twoD rows)).getD i 0 = (rows.getD i []).sum / (c : ℚ)) ∧
    (∀ a b : NpArray, a = b → monoSamples a = monoSamples b) := by
  refine ⟨by simp [monoSamples, meanAxis1], ?_, fun a b h => by rw [h]⟩
  intro i hi
  have hlen : i < (meanAxis1 rows).length := by simpa [meanAxis1] using hi
  have h1 : (monoSamples (NpArray.twoD rows)).getD i 0 = (meanAxis1 rows)[i] := by
    simpa [monoSamples] using List.getD_eq_getElem (meanAxis1 rows) 0 hlen
  have h2 : (rows.getD i []).sum = (rows[i]).sum := by
    rw [List.getD_eq_getElem rows [] hi]
  have h3 : (meanAxis1 rows)[i] = (rows[i]).sum / ((rows[i]).length : ℚ) := by
    simp [meanAxis1]
  have h4 : (rows[i]).length = c := hrows _ (List.getElem_mem hi)
  rw [h1, h3, h2, h4]

/-- Witness for C3 on a two-frame stereo buffer. -/
theorem channel_reduction_mean_witness :
    2 ≤ 2 ∧
    (monoSamples (NpArray.twoD [[(1 : ℚ), 2], [3, 5]])).getD 0 0
      = ([[(1 : ℚ), 2], [3, 5]].getD 0 []).sum / ((2 : Nat) : ℚ) :=
  ⟨by decide,
   (channel_reduction_mean [[(1 : ℚ), 2], [3, 5]] 2 (by decide)
      (by decide)).2.1 0 (by decide)⟩

/-! ## The success branch of the pipeline, in closed form -/

/-- The features value the generate call receives: extractor output on
CPU in float32, moved to the probed device, input features cast to half
precision exactly when the probed dtype is float16. -/
def alignedFeatures (cuda : Bool) (ext : List ℚ × List Nat) : Features :=
  let inputs0 : Features :=
    { data := ext.1, mask := ext.2, device := CPU_DEVICE, dtype := Dtype.float32 }
  let inputs1 := { inputs0 with device := if cuda then CUDA_DEVICE else CPU_DEVICE }
  if (if cuda then Dtype.float16 else Dtype.float32) = Dtype.float16
  then { inputs1 with dtype := Dtype.float16 } else inputs1

lemma transcribe_success (libs : Libs) (cuda : Bool) (s : CacheState)
    (b : List Nat) (audio : NpArray) (sr : Nat)
    (h : libs.sfRead b = some (audio, sr)) :
    transcribe_audio libs cuda s b =
      (Except.ok { text := libs.decode (libs.generate (load_model cuda s).1.1
          (alignedFeatures cuda (libs.extract (monoSamples audio) sr)) LANGUAGE TASK) },
       { (load_model cuda s).2 with
          probeCount := (load_model cuda s).2.probeCount + 2 },
       { decodeOk := true, probes := 2,
         genCall := some (alignedFeatures cuda (libs.extract (monoSamples audio) sr),
           LANGUAGE, TASK, true) }) := by
  simp [transcribe_audio, h, alignedFeatures]

lemma alignedFeatures_profile (cuda : Bool) (ext : List ℚ × List Nat) :
    (alignedFeatures cuda ext).device = (resolveProfile cuda).device ∧
    (alignedFeatures cuda ext).dtype = (resolveProfile cuda).dtype := by
  cases cuda <;> simp [alignedFeatures, resolveProfile]

lemma loadedModel_profile (cuda : Bool) :
    (loadedModel cuda).device = (resolveProfile cuda).device ∧
    (loadedModel cuda).dtype = (resolveProfile cuda).dtype := by
  cases cuda <;>
    simp [loadedModel, resolveProfile, ModelHandle.from_pretrained, ModelHandle.to]

/-! ## Claim C4 -/

/-- C4 counterexample: on a concrete unparseable upload the handler
raises out of sf.read, which surfaces as HTTP 500 — not a 4xx-range
client error as the claim states — and the model has already been
loaded (loadCount = 1) before the decode failure, so the error is not
detected before touching the model. -/
theorem unparseable_counterexample :
    statusOf (transcribe_audio badLibs false coldState [1, 2, 3]).1 = 500 ∧
    ¬ (400 ≤ statusOf (transcribe_audio badLibs false coldState [1, 2, 3]).1 ∧
       statusOf (transcribe_audio badLibs false coldState [1, 2, 3]).1 < 500) ∧
    (transcribe_audio badLibs false coldState [1, 2, 3]).2.1.loadCount = 1 := by
  decide

/-- C4 amended: an upload the audio library cannot parse makes sf.read
raise an uncaught exception that the framework surfaces as a generic
HTTP 500 internal error (no UnsupportedFormat / 4xx mapping exists),
and only after the model has been ensured loaded, since the handler
calls load_model before reading the upload. -/
theorem unparseable_surfaces_500 (libs : Libs) (cuda : Bool)
    (s : CacheState) (b : List Nat) (h : libs.sfRead b = none) :
    (transcribe_audio libs cuda s b).1 =
      Except.error (PyError.exception "soundfile failed to parse the upload") ∧
    statusOf (transcribe_audio libs cuda s b).1 = 500 ∧
    (transcribe_audio libs cuda s b).2.1 = (load_model cuda s).2 := by
  simp [transcribe_audio, h, statusOf]

/-- Witness for C4 amended at a concrete unparseable upload. -/
theorem unparseable_surfaces_500_witness :
    badLibs.sfRead [9] = none ∧
    statusOf (transcribe_audio badLibs false coldState [9]).1 = 500 :=
  ⟨rfl, (unparseable_surfaces_500 badLibs false coldState [9] rfl).2.1⟩

/-! ## Claim C5 -/

/-- C5 counterexample: on a concrete upload that decodes to zero
samples the handler performs no emptiness check at all — generation is
invoked on the zero-length audio and the request even completes with
HTTP 200, refuting that the pipeline fails with InvalidAudio or
EmptyAudio before the generation step. -/
theorem empty_audio_counterexample :
    ((transcribe_audio emptyLibs false coldState [0]).2.2.genCall).isSome = true ∧
    statusOf (transcribe_audio emptyLibs false coldState [0]).1 = 200 := by
  decide

/-- C5 amended: audio that decodes to zero samples is not detected:
no InvalidAudio or EmptyAudio check exists, the features of the empty
waveform are extracted, generation is invoked on them, and the handler
returns a 200 response. -/
theorem empty_audio_reaches_generation (libs : Libs) (cuda : Bool)
    (s : CacheState) (b : List Nat) (audio : NpArray) (sr : Nat)
    (h : libs.sfRead b = some (audio, sr)) (hz : monoSamples audio = []) :
    (transcribe_audio libs cuda s b).2.2.genCall =
      some (alignedFeatures cuda (libs.extract [] sr), LANGUAGE, TASK, true) ∧
    statusOf (transcribe_audio libs cuda s b).1 = 200 := by
  rw [transcribe_success libs cuda s b audio sr h, hz]
  exact ⟨rfl, rfl⟩

/-- Witness for C5 amended at a concrete zero-sample upload. -/
theorem empty_audio_reaches_generation_witness :
    emptyLibs.sfRead [0] = some (NpArray.oneD [], 16000) ∧
    monoSamples (NpArray.oneD []) = [] ∧
    statusOf (transcribe_audio emptyLibs false coldState [0]).1 = 200 :=
  ⟨rfl, rfl,
   (empty_audio_reaches_generation emptyLibs false coldState [0]
      (NpArray.oneD []) 16000 rfl rfl).2⟩

/-! ## Claim C2 -/

/-- C2 counterexample: on a concrete CPU-only process the startup load
probes the hardware twice (probe count 2), and handling one subsequent
request probes it twice more (probe count 4): the device/precision
choice is re-evaluated on a subsequent operation, refuting that it is
resolved exactly once and never re-evaluated. -/
theorem device_reprobe_counterexample :
    (srvRun demoLibs false [SrvEvent.startup]).probeCount = 2 ∧
    (srvRun demoLibs false
      [SrvEvent.startup, SrvEvent.request [1, 2]]).probeCount = 4 := by
  decide

lemma load_model_loaded (cuda : Bool) (s : CacheState) (h : cacheInv cuda s) :
    (load_model cuda s).2.loaded = some (loadedModel cuda, loadedProcessor) := by
  rcases h with ⟨h1, _⟩ | ⟨h1, _⟩
  · rw [load_model_cold cuda s h1]
  · rw [load_model_warm cuda s _ h1]
    exact h1

/-- C2 amended: the device/precision choice is re-derived by re-probing
the accelerator at each model load and again on every transcription
request (two probes per request, on top of the probes already
performed); because accelerator availability is constant for the
process, the profile each request computes — and the device/dtype its
features end up with — equals the profile of the first use, so the
re-probing never changes the outcome. -/
theorem device_profile_stable (libs : Libs) (cuda : Bool) (s : CacheState)
    (b : List Nat) (audio : NpArray) (sr : Nat)
    (h : libs.sfRead b = some (audio, sr)) :
    (transcribe_audio libs cuda s b).2.2.probes = 2 ∧
    (transcribe_audio libs cuda s b).2.1.probeCount =
      (load_model cuda s).2.probeCount + 2 ∧
    (loadedModel cuda).device = (resolveProfile cuda).device ∧
    (loadedModel cuda).dtype = (resolveProfile cuda).dtype ∧
    ∀ f lang task ng,
      (transcribe_audio libs cuda s b).2.2.genCall = some (f, lang, task, ng) →
      f.device = (resolveProfile cuda).device ∧
      f.dtype = (resolveProfile cuda).dtype := by
  rw [transcribe_success libs cuda s b audio sr h]
  refine ⟨rfl, rfl, (loadedModel_profile cuda).1, (loadedModel_profile cuda).2, ?_⟩
  intro f lang task ng hf
  simp only [Option.some.injEq, Prod.mk.injEq] at hf
  obtain ⟨h1, -, -, -⟩ := hf
  rw [← h1]
  exact alignedFeatures_profile cuda _

/-- Witness for C2 amended at a concrete request. -/
theorem device_profile_stable_witness :
    demoLibs.sfRead [1, 2] = some (NpArray.oneD [(1 : ℚ), 2], 16000) ∧
    (transcribe_audio demoLibs false coldState [1, 2]).2.2.probes = 2 :=
  ⟨by decide,
   (device_profile_stable demoLibs false coldState [1, 2]
      (NpArray.oneD [(1 : ℚ), 2]) 16000 (by decide)).1⟩

/-! ## Claim C7 -/

/-- C7: on any state reachable from a cold start, whenever a request
reaches the generate call, the features it passes live on the same
device as the cached model and carry the same dtype as the cached
model: half precision on GPU, full precision on CPU. -/
theorem features_match_model (libs : Libs) (cuda : Bool)
    (events : List SrvEvent) (b : List Nat)
    (f : Features) (lang task : String) (ng : Bool)
    (h : (transcribe_audio libs cuda (srvRun libs cuda events) b).2.2.genCall
        = some (f, lang, task, ng)) :
    ∃ m p, (transcribe_audio libs cuda (srvRun libs cuda events) b).2.1.loaded
        = some (m, p) ∧ f.device = m.device ∧ f.dtype = m.dtype := by
  have hinv := srvRun_inv libs cuda events
  have hL : (transcribe_audio libs cuda (srvRun libs cuda events) b).2.1.loaded
      = some (loadedModel cuda, loadedProcessor) := by
    rw [(transcribe_cache libs cuda _ b).1, load_model_loaded cuda _ hinv]
  cases hr : libs.sfRead b with
  | none => simp [transcribe_audio, hr] at h
  | some v =>
      obtain ⟨audio, sr⟩ := v
      rw [transcribe_success libs cuda _ b audio sr hr] at h
      simp only [Option.some.injEq, Prod.mk.injEq] at h
      obtain ⟨hf, -, -, -⟩ := h
      refine ⟨loadedModel cuda, loadedProcessor, hL, ?_, ?_⟩
      · rw [← hf, (alignedFeatures_profile cuda _).1, ← (loadedModel_profile cuda).1]
      · rw [← hf, (alignedFeatures_profile cuda _).2, ← (loadedModel_profile cuda).2]

/-- The concrete features of the C7 and C8 witnesses. -/
def demoFeat : Features :=
  { data := [(1 : ℚ)], mask := [1], device := CPU_DEVICE, dtype := Dtype.float32 }

/-- Witness for C7 at a concrete request on a cold CPU-only process. -/
theorem features_match_model_witness :
    (transcribe_audio demoLibs false (srvRun demoLibs false []) [1]).2.2.genCall
      = some (demoFeat, LANGUAGE, TASK, true) ∧
    ∃ m p, (transcribe_audio demoLibs false (srvRun demoLibs false []) [1]).2.1.loaded
        = some (m, p) ∧ demoFeat.device = m.device ∧ demoFeat.dtype = m.dtype :=
  ⟨by decide,
   features_match_model demoLibs false [] [1] demoFeat LANGUAGE TASK true (by decide)⟩

/-! ## Claim C8 -/

lemma load_model_fst (cuda : Bool) (s1 s2 : CacheState)
    (h : s1.loaded = s2.loaded) :
    (load_model cuda s1).1 = (load_model cuda s2).1 := by
  cases hl : s1.loaded with
  | none =>
      rw [load_model_cold cuda s1 hl, load_model_cold cuda s2 (by rw [← h]; exact hl)]
  | some mp =>
      rw [load_model_warm cuda s1 mp hl,
        load_model_warm cuda s2 mp (by rw [← h]; exact hl)]

/-- C8: the response is a pure deterministic function of the uploaded
waveform and the cached model handle — two states agreeing on the
cached handle produce identical responses for identical bytes — and
whenever generation runs it receives the fixed, request-independent
language and task constants and runs under no_grad. -/
theorem transcription_pure (libs : Libs) (cuda : Bool) (s1 s2 : CacheState)
    (b : List Nat) (h : s1.loaded = s2.loaded) :
    (transcribe_audio libs cuda s1 b).1 = (transcribe_audio libs cuda s2 b).1 ∧
    ∀ f lang task ng,
      (transcribe_audio libs cuda s1 b).2.2.genCall = some (f, lang, task, ng) →
      lang = LANGUAGE ∧ task = TASK ∧ ng = true := by
  constructor
  · cases hr : libs.sfRead b with
    | none => simp [transcribe_audio, hr]
    | some v =>
        obtain ⟨audio, sr⟩ := v
        rw [transcribe_success libs cuda s1 b audio sr hr,
          transcribe_success libs cuda s2 b audio sr hr,
          load_model_fst cuda s1 s2 h]
  · intro f lang task ng hg
    cases hr : libs.sfRead b with
    | none => simp [transcribe_audio, hr] at hg
    | some v =>
        obtain ⟨audio, sr⟩ := v
        rw [transcribe_success libs cuda s1 b audio sr hr] at hg
        simp only [Option.some.injEq, Prod.mk.injEq] at hg
        obtain ⟨-, h2, h3, h4⟩ := hg
        exact ⟨h2.symm, h3.symm, h4.symm⟩

/-- Witness for C8: two states with the same (cold) cache but different
instrumentation counters produce the same response, and a concrete
generate call received the fixed language, task and no_grad flag. -/
theorem transcription_pure_witness :
    (transcribe_audio demoLibs false coldState [1]).1 =
      (transcribe_audio demoLibs false
        { loaded := none, loadCount := 0, probeCount := 99 } [1]).1 ∧
    (LANGUAGE = LANGUAGE ∧ TASK = TASK ∧ (true : Bool) = true) :=
  ⟨(transcription_pure demoLibs false coldState
      { loaded := none, loadCount := 0, probeCount := 99 } [1] rfl).1,
   (transcription_pure demoLibs false coldState
      { loaded := none, loadCount := 0, probeCount := 99 } [1] rfl).2
      demoFeat LANGUAGE TASK true (by decide)⟩

/-! ## Claim C9: the request gate

The admission ceiling is declared in source:
modal_deploy.py line 33, the decorator argument max_inputs=10. -/

def ADMISSION_CEILING : Nat := 10

/-- Modelled from the spec: the queueing, FIFO-admission and timeout
mechanics behind the `modal.concurrent(max_inputs=10)` declaration of
modal_deploy.py run inside the Modal platform and are not part of
src/.  Following spec sections 4.5 and 5: at most ADMISSION_CEILING
requests are in flight at once; an arrival is admitted immediately when
capacity is free and nobody queues ahead of it, otherwise appended to a
FIFO queue; a completion admits the queue head; a queued request whose
caller-supplied timeout elapses is removed and fails with Overloaded.
`admitted`, `arrivals` and `overloaded` are append-only logs. -/
structure GateState where
  inFlight : List Nat
  queue : List Nat
  admitted : List Nat
  arrivals : List Nat
  overloaded : List Nat
  deriving DecidableEq, Repr

def gateInit : GateState := ⟨[], [], [], [], []⟩

inductive GateEvent where
  | arrive (r : Nat)
  | complete (r : Nat)
  | timeout (r : Nat)
  deriving DecidableEq, Repr

/-- Modelled from the spec: one gate transition per external event. -/
def gateStep (s : GateState) : GateEvent → GateState
  | GateEvent.arrive r =>
      if s.inFlight.length < ADMISSION_CEILING ∧ s.queue = [] then
        { s with inFlight := s.inFlight ++ [r], admitted := s.admitted ++ [r],
                 arrivals := s.arrivals ++ [r] }
      else
        { s with queue := s.queue ++ [r], arrivals := s.arrivals ++ [r] }
  | GateEvent.complete r =>
      if r ∈ s.inFlight then
        match s.queue with
        | [] => { s with inFlight := s.inFlight.erase r }
        | q :: rest =>
            { s with inFlight := s.inFlight.erase r ++ [q], queue := rest,
                     admitted := s.admitted ++ [q] }
      else s
  | GateEvent.timeout r =>
      if r ∈ s.queue then
        { s with queue := s.queue.erase r, overloaded := s.overloaded ++ [r] }
      else s

def gateRun (events : List GateEvent) : GateState :=
  events.foldl gateStep gateInit

/-- Inductive invariant of the gate: the in-flight set respects the
ceiling, and the admissions followed by the still-queued requests form
a subsequence of the arrival order (so admissions preserve arrival
order). -/
def gateInv (s : GateState) : Prop :=
  s.inFlight.length ≤ ADMISSION_CEILING ∧
  (s.admitted ++ s.queue).Sublist s.arrivals

lemma gateStep_inv (s : GateState) (e : GateEvent) (h : gateInv s) :
    gateInv (gateStep s e) := by
  obtain ⟨h1, h2⟩ := h
  cases e with
  | arrive r =>
      simp only [gateStep]
      split
      case isTrue hc =>
        obtain ⟨hlt, hq⟩ := hc
        constructor
        · simp only [List.length_append, List.length_singleton]
          omega
        · simp only [hq, List.append_nil] at h2
          simp only [hq, List.append_nil]
          exact h2.append (List.Sublist.refl [r])
      case isFalse hc =>
        refine ⟨h1, ?_⟩
        rw [← List.append_assoc]
        exact h2.append (List.Sublist.refl [r])
  | complete r =>
      simp only [gateStep]
      split
      case isTrue hm =>
        split
        case h_1 heq => exact ⟨Nat.le_trans (List.erase_sublist r s.inFlight).length_le h1, h2⟩
        case h_2 q rest heq =>
          constructor
          · have he := List.length_erase_of_mem hm
            have hpos : 0 < s.inFlight.length := List.length_pos_of_mem hm
            simp only [List.length_append, List.length_singleton, he]
            omega
          · rw [List.append_assoc, List.singleton_append, ← heq]
            exact h2
      case isFalse => exact ⟨h1, h2⟩
  | timeout r =>
      simp only [gateStep]
      split
      · exact ⟨h1, List.Sublist.trans
          ((s.queue.erase_sublist r).append_left s.admitted) h2⟩
      · exact ⟨h1, h2⟩

lemma gateRun_inv (events : List GateEvent) : gateInv (gateRun events) := by
  have h : ∀ s : GateState, gateInv s →
      gateInv (events.foldl gateStep s) := by
    induction events with
    | nil => intro s hs; simpa using hs
    | cons e rest ih => intro s hs; exact ih _ (gateStep_inv s e hs)
  exact h gateInit ⟨by simp [gateInit, ADMISSION_CEILING], by simp [gateInit]⟩

lemma gateStep_overloaded (s : GateState) (e : GateEvent) (r : Nat)
    (h : r ∈ (gateStep s e).overloaded) :
    r ∈ s.overloaded ∨ e = GateEvent.timeout r := by
  cases e with
  | arrive a =>
      left
      simp only [gateStep] at h
      split at h <;> exact h
  | complete a =>
      left
      simp only [gateStep] at h
      split at h
      · split at h <;> exact h
      · exact h
  | timeout a =>
      simp only [gateStep] at h
      split at h
      · have h2 : r ∈ s.overloaded ++ [a] := h
        rcases List.mem_append.mp h2 with h3 | h3
        · exact Or.inl h3
        · right
          rw [List.mem_singleton.mp h3]
      · exact Or.inl h

lemma gate_overloaded_from (events : List GateEvent) (s : GateState) (r : Nat)
    (h : r ∈ (events.foldl gateStep s).overloaded) :
    r ∈ s.overloaded ∨ GateEvent.timeout r ∈ events := by
  induction events generalizing s with
  | nil => exact Or.inl (by simpa using h)
  | cons e rest ih =>
      rcases ih (gateStep s e) (by simpa using h) with h1 | h1
      · rcases gateStep_overloaded s e r h1 with h2 | h2
        · exact Or.inl h2
        · exact Or.inr (by rw [h2]; exact List.mem_cons_self _ _)
      · exact Or.inr (List.mem_cons_of_mem e h1)

/-- C9: over any event sequence, the number of in-flight requests never
exceeds the admission ceiling of 10; every arrival is admitted or
queued, never rejected; when a request completes the head of the FIFO
queue is admitted next; admissions happen in arrival order; and a
request fails with Overloaded only when a timeout event occurred for
it. -/
theorem admission_gate_behavior (events : List GateEvent) :
    (gateRun events).inFlight.length ≤ ADMISSION_CEILING ∧
    (gateRun events).admitted.Sublist (gateRun events).arrivals ∧
    (∀ s : GateState, ∀ r : Nat,
      r ∈ (gateStep s (GateEvent.arrive r)).inFlight ∨
      r ∈ (gateStep s (GateEvent.arrive r)).queue) ∧
    (∀ s : GateState, ∀ r q : Nat, ∀ rest : List Nat,
      r ∈ s.inFlight → s.queue = q :: rest →
      (gateStep s (GateEvent.complete r)).admitted = s.admitted ++ [q] ∧
      (gateStep s (GateEvent.complete r)).queue = rest) ∧
    ∀ r, r ∈ (gateRun events).overloaded → GateEvent.timeout r ∈ events := by
  obtain ⟨h1, h2⟩ := gateRun_inv events
  refine ⟨h1, ?_, ?_, ?_, ?_⟩
  · exact List.Sublist.trans (List.sublist_append_left _ _) h2
  · intro s r
    simp only [gateStep]
    split
    · left
      exact List.mem_append_right _ (List.mem_singleton.mpr rfl)
    · right
      exact List.mem_append_right _ (List.mem_singleton.mpr rfl)
  · intro s r q rest hm hq
    simp [gateStep, hm, hq]
  · intro r hr
    rcases gate_overloaded_from events gateInit r hr with h3 | h3
    · simp [gateInit] at h3
    · exact h3

/-- Eleven arrivals saturate the ceiling of ten, queue the eleventh,
and its timeout fails it with Overloaded. -/
def demoGateEvents : List GateEvent :=
  (List.range 11).map GateEvent.arrive ++ [GateEvent.timeout 10]

/-- Witness for C9 on a saturating event sequence. -/
theorem admission_gate_behavior_witness :
    (gateRun demoGateEvents).inFlight.length ≤ ADMISSION_CEILING ∧
    GateEvent.timeout 10 ∈ demoGateEvents :=
  ⟨(admission_gate_behavior demoGateEvents).1,
   (admission_gate_behavior demoGateEvents).2.2.2.2 10 (by decide)⟩

/-! ## Claim C10: the database initializer
(src/backend-auth/init_db.py lines 11-38) -/

/-- Embeds one row of the users table: email is the primary key. -/
structure UserRow where
  email : String
  password : String
  user_type : String
  api_token : String
  deriving DecidableEq, Repr

abbrev UsersTable := List UserRow

/-- The admin seed row (init_db.py lines 21-24). -/
def adminRow : UserRow :=
  ⟨"admin@admin.com", "111", "admin", "admintoken123"⟩

/-- The teacher seed row (init_db.py lines 27-30). -/
def teacherRow : UserRow :=
  ⟨"teacher@teacher.com", "123", "teacher", "teachertoken123"⟩

/-- The student seed row (init_db.py lines 33-36). -/
def studentRow : UserRow :=
  ⟨"john@john.com", "123", "student", "studenttoken123"⟩

/-- Whether a row with the given primary-key email exists. -/
def emailPresent (t : UsersTable) (e : String) : Bool :=
  t.any (fun r => r.email == e)

/-- Embeds INSERT OR IGNORE keyed on the email primary key: the row is
appended only when no row with its email exists, otherwise the
statement is ignored and the table is untouched. -/
def insertOrIgnore (t : UsersTable) (row : UserRow) : UsersTable :=
  if emailPresent t row.email then t else t ++ [row]

/-- Embeds CREATE TABLE IF NOT EXISTS users: a missing table (none)
becomes an empty one, an existing table is kept with all its rows. -/
def createTableRows : Option UsersTable → UsersTable
  | none => []
  | some t => t

/-- Embeds one full run of init_db.py: create the table if absent,
then INSERT OR IGNORE the admin, teacher and student seed rows. -/
def init_db (db : Option UsersTable) : Option UsersTable :=
  some (insertOrIgnore (insertOrIgnore (insertOrIgnore
    (createTableRows db) adminRow) teacherRow) studentRow)

lemma emailPresent_insertOrIgnore (t : UsersTable) (row : UserRow)
    (e : String) (h : emailPresent t e = true) :
    emailPresent (insertOrIgnore t row) e = true := by
  rw [insertOrIgnore]
  split
  · exact h
  · simp only [emailPresent, List.any_append]
    rw [emailPresent] at h
    simp [h]

lemma emailPresent_self (t : UsersTable) (row : UserRow) :
    emailPresent (insertOrIgnore t row) row.email = true := by
  rw [insertOrIgnore]
  split
  case isTrue h => exact h
  case isFalse h => simp [emailPresent, List.any_append]

lemma insertOrIgnore_present (t : UsersTable) (row : UserRow)
    (h : emailPresent t row.email = true) : insertOrIgnore t row = t := by
  simp [insertOrIgnore, h]

lemma find?_insertOrIgnore (t : UsersTable) (row : UserRow) (e : String)
    (h : emailPresent t e = true) :
    (insertOrIgnore t row).find? (fun x => x.email == e)
      = t.find? (fun x => x.email == e) := by
  rw [insertOrIgnore]
  split
  · rfl
  · rw [List.find?_append]
    have h2 : ∃ x, x ∈ t ∧ (fun x => x.email == e) x = true := by
      simpa [emailPresent, List.any_eq_true] using h
    have h3 : (t.find? (fun x => x.email == e)).isSome := List.find?_isSome.mpr h2
    obtain ⟨x, hx⟩ := Option.isSome_iff_exists.mp h3
    rw [hx]
    rfl

/-- C10: running the database initializer on an existing database is
idempotent — a second run produces the identical database — and any
run on an existing table leaves the authoritative row of every already
present email (password, user type and token included, even when
modified away from the seeded values) exactly as it was. -/
theorem init_db_idempotent (db : Option UsersTable) (t : UsersTable)
    (h : db = some t) :
    init_db (init_db db) = init_db db ∧
    ∀ e, emailPresent t e = true →
      (createTableRows (init_db db)).find? (fun x => x.email == e)
        = t.find? (fun x => x.email == e) := by
  subst h
  constructor
  · have ha : emailPresent (insertOrIgnore (insertOrIgnore (insertOrIgnore
        t adminRow) teacherRow) studentRow)
        adminRow.email = true :=
      emailPresent_insertOrIgnore _ _ _ (emailPresent_insertOrIgnore _ _ _
        (emailPresent_self _ adminRow))
    have hb : emailPresent (insertOrIgnore (insertOrIgnore (insertOrIgnore
        t adminRow) teacherRow) studentRow)
        teacherRow.email = true :=
      emailPresent_insertOrIgnore _ _ _ (emailPresent_self _ teacherRow)
    have hc : emailPresent (insertOrIgnore (insertOrIgnore (insertOrIgnore
        t adminRow) teacherRow) studentRow)
        studentRow.email = true :=
      emailPresent_self _ studentRow
    rw [init_db, init_db]
    simp only [createTableRows]
    rw [insertOrIgnore_present _ _ ha]
    rw [insertOrIgnore_present _ _ hb]
    rw [insertOrIgnore_present _ _ hc]
  · intro e he
    rw [init_db]
    simp only [createTableRows]
    rw [find?_insertOrIgnore _ _ _ (emailPresent_insertOrIgnore _ _ _
      (emailPresent_insertOrIgnore _ _ _ he))]
    rw [find?_insertOrIgnore _ _ _ (emailPresent_insertOrIgnore _ _ _ he)]
    exact find?_insertOrIgnore _ _ _ he

/-- A seeded email whose password and token were changed after the
first run. -/
def modifiedAdmin : UserRow :=
  ⟨"admin@admin.com", "hacked", "admin", "rotatedtoken456"⟩

/-- Witness for C10: re-running the initializer on a database holding a
modified admin row changes nothing, and the modified row survives. -/
theorem init_db_idempotent_witness :
    init_db (init_db (some [modifiedAdmin])) = init_db (some [modifiedAdmin]) ∧
    (createTableRows (init_db (some [modifiedAdmin]))).find?
        (fun x => x.email == "admin@admin.com") = some modifiedAdmin := by
  refine ⟨(init_db_idempotent (some [modifiedAdmin]) [modifiedAdmin] rfl).1, ?_⟩
  rw [(init_db_idempotent (some [modifiedAdmin]) [modifiedAdmin] rfl).2
    "admin@admin.com" (by decide)]
  decide

end ISA
